import Mathlib

/-!
Shallow embedding of the byte-stream engine in src/src/zmq_engine.cpp
(class zmq::zmq_engine_t).  The engine's collaborators (tcp_socket,
decoder, encoder, session, poller) are modelled by oracles: each event
handler receives the outcomes the collaborators would report (bytes read,
bytes consumed, bytes written, whether a callback reentrantly unplugged
the engine) and the handler's observable behaviour is recorded as a trace
of events (reads, writes, consume calls, flushes, detaches, poller
operations, disposal).
-/

namespace ZmqEngine

/-- Observable actions the engine performs on its collaborators, in order. -/
inductive Event where
  | readT : Event
  | consume : Nat → Nat → Event
  | flush : Nat → Event
  | detach : Nat → Event
  | getData : Event
  | writeT : Nat → Nat → Event
  | setPollin : Event
  | resetPollin : Event
  | setPollout : Event
  | resetPollout : Event
  | addFd : Event
  | rmFd : Event
  | dispose : Event
  deriving DecidableEq, Repr

/-- Engine state: the member variables of zmq_engine_t.  Cursors are
offsets into the decoder's (resp. encoder's) buffer; sessions are
identified by natural numbers, a missing session is none.  The flags
registered and disposed record the fd registration and the delete this
self-disposal, observable only through the collaborators in the C++. -/
structure Engine where
  inpos : Nat
  insize : Nat
  outpos : Nat
  outsize : Nat
  session : Option Nat
  leftover_session : Option Nat
  decoderSession : Option Nat
  encoderSession : Option Nat
  plugged : Bool
  registered : Bool
  pollin : Bool
  pollout : Bool
  disposed : Bool
  deriving DecidableEq, Repr

/-- Outcome of tcp_socket.read: Bytes(n) for a successful read of n bytes
(possibly 0), closed for the (size_t) -1 return that signals peer close
or a transport error. -/
inductive ReadResult where
  | bytes : Nat → ReadResult
  | closed : ReadResult
  deriving DecidableEq, Repr

/-- Outcome of decoder.process_buffer: Consumed(k) for a return of k
bytes processed, decodeError for the (size_t) -1 return. -/
inductive ConsumeOutcome where
  | consumed : Nat → ConsumeOutcome
  | decodeError : ConsumeOutcome
  deriving DecidableEq, Repr

/-- Collaborator responses during one in_event call.  consumeUnplugs
(resp. flushUnplugs) records whether the decoder callback (resp. the
session flush) reentrantly unplugged the engine. -/
structure InOracle where
  readResult : ReadResult
  consumeResult : ConsumeOutcome
  consumeUnplugs : Bool
  flushUnplugs : Bool
  deriving DecidableEq, Repr

/-- Collaborator responses during one out_event call: the length the
encoder's get_data yields, whether that callback reentrantly unplugged
the engine, and the tcp_socket.write outcome (none models the -1 error
return, some n a successful write of n bytes). -/
structure OutOracle where
  dataLen : Nat
  dataUnplugs : Bool
  writeResult : Option Nat
  deriving DecidableEq, Repr

/-- State change of zmq_engine_t::unplug: rm_fd, detach decoder and
encoder from the session, move the session into the leftover slot. -/
def unplugSt (e : Engine) : Engine :=
  { e with plugged := false, registered := false,
           decoderSession := none, encoderSession := none,
           leftover_session := e.session, session := none }

/-- Trace of zmq_engine_t::unplug. -/
def unplugTr : List Event := [Event.rmFd]

/-- zmq_engine_t::error: session->detach(), unplug, delete this.  The
none branch is unreachable in the C++ (zmq_assert (session)). -/
def errorE (e : Engine) : Engine × List Event :=
  match e.session with
  | some s =>
      ({ unplugSt e with disposed := true },
       [Event.detach s, Event.rmFd, Event.dispose])
  | none => (e, [])

/-- Buffer length available to the decoder after the read step of
in_event: if insize was 0 the engine read from the socket (a closed
connection forces the length to 0), otherwise the buffered length. -/
def readLen (e : Engine) (o : InOracle) : Nat :=
  if e.insize = 0 then
    match o.readResult with
    | ReadResult.bytes n => n
    | ReadResult.closed => 0
  else e.insize

/-- Inbound cursor after the read step: a fresh get_buffer resets it to
the start of the decoder's buffer, otherwise it is unchanged. -/
def readPos (e : Engine) (o : InOracle) : Nat :=
  if e.insize = 0 then 0 else e.inpos

/-- Disconnection flag contributed by the read step. -/
def readDisc (e : Engine) (o : InOracle) : Bool :=
  if e.insize = 0 then
    match o.readResult with
    | ReadResult.bytes _ => false
    | ReadResult.closed => true
  else false

/-- Trace of the read step: one socket read when the buffer was empty. -/
def readTr (e : Engine) (o : InOracle) : List Event :=
  if e.insize = 0 then [Event.readT] else []

/-- Reentrant unplug performed by the decoder callback inside
process_buffer, when the oracle says it happens and the engine is
still plugged. -/
def consumeStep (e1 : Engine) (o : InOracle) : Engine × List Event :=
  if o.consumeUnplugs = true ∧ e1.plugged = true then (unplugSt e1, unplugTr)
  else (e1, [])

/-- Cursor adjustment after process_buffer returns: a decode error sets
the disconnection flag and leaves the cursor alone; Consumed(k) pauses
read interest when k < insize and the engine is still plugged, then
advances the cursor by k and shrinks the length by k. -/
def adjustStep (e2 : Engine) (disc1 : Bool) (o : InOracle) :
    Engine × Bool × List Event :=
  match o.consumeResult with
  | ConsumeOutcome.decodeError => (e2, true, [])
  | ConsumeOutcome.consumed k =>
      if k < e2.insize ∧ e2.plugged = true then
        ({ e2 with pollin := false, inpos := e2.inpos + k,
                   insize := e2.insize - k },
         disc1, [Event.resetPollin])
      else
        ({ e2 with inpos := e2.inpos + k, insize := e2.insize - k },
         disc1, [])

/-- Flush step of in_event: if the engine is unplugged flush the
leftover session (the C++ asserts it is non-null), else flush the
current session, which may itself reentrantly unplug the engine. -/
def flushStep (e3 : Engine) (o : InOracle) : Engine × List Event :=
  if e3.plugged = true then
    match e3.session with
    | some s =>
        if o.flushUnplugs = true then (unplugSt e3, [Event.flush s, Event.rmFd])
        else (e3, [Event.flush s])
    | none => (e3, [])
  else
    match e3.leftover_session with
    | some s => (e3, [Event.flush s])
    | none => (e3, [])

/-- Final step of in_event: if (session && disconnection) error(). -/
def errorStep (e4 : Engine) (disc : Bool) : Engine × List Event :=
  if e4.session.isSome = true ∧ disc = true then errorE e4 else (e4, [])

/-- zmq_engine_t::in_event. -/
def in_eventE (e : Engine) (o : InOracle) : Engine × List Event :=
  let e1 : Engine := { e with inpos := readPos e o, insize := readLen e o }
  let p2 := consumeStep e1 o
  let p3 := adjustStep p2.1 (readDisc e o) o
  let p4 := flushStep p3.1 o
  let p5 := errorStep p4.1 p3.2.1
  (p5.1,
   readTr e o ++ [Event.consume (readPos e o) (readLen e o)] ++ p2.2
     ++ p3.2.2 ++ p4.2 ++ p5.2)

/-- Write step of out_event: one bounded socket write; -1 invokes
error() and returns, otherwise the cursor advances by the bytes
actually written. -/
def writeStep (e : Engine) (o : OutOracle) : Engine × List Event :=
  match o.writeResult with
  | none =>
      let p := errorE e
      (p.1, Event.writeT e.outpos e.outsize :: p.2)
  | some n =>
      ({ e with outpos := e.outpos + n, outsize := e.outsize - n },
       [Event.writeT e.outpos e.outsize])

/-- Flush of the leftover session after a refill that reentrantly
unplugged the engine (the C++ asserts leftover_session is non-null). -/
def refillFlush (e2 : Engine) : Engine × List Event :=
  match e2.leftover_session with
  | some s => (e2, [Event.flush s])
  | none => (e2, [])

/-- zmq_engine_t::out_event. -/
def out_eventE (e : Engine) (o : OutOracle) : Engine × List Event :=
  if e.outsize = 0 then
    let e1 : Engine := { e with outpos := 0, outsize := o.dataLen }
    let e2 := if o.dataUnplugs = true ∧ e.plugged = true then unplugSt e1 else e1
    let tr2 : List Event :=
      if o.dataUnplugs = true ∧ e.plugged = true then unplugTr else []
    if e2.plugged = false then
      let p := refillFlush e2
      (p.1, Event.getData :: tr2 ++ p.2)
    else if e2.outsize = 0 then
      ({ e2 with pollout := false },
       Event.getData :: tr2 ++ [Event.resetPollout])
    else
      let p := writeStep e2 o
      (p.1, Event.getData :: tr2 ++ p.2)
  else
    writeStep e o

/-- State installed by zmq_engine_t::plug before the initial drain:
clear the leftover slot, attach decoder and encoder to the session,
install the session, add_fd, set_pollin, set_pollout. -/
def plugPrep (e : Engine) (s : Nat) : Engine :=
  { e with plugged := true, leftover_session := none,
           decoderSession := some s, encoderSession := some s,
           session := some s, registered := true,
           pollin := true, pollout := true }

/-- zmq_engine_t::plug: install the session and registrations, then run
one in_event pass to flush data already received. -/
def plugE (e : Engine) (s : Nat) (o : InOracle) : Engine × List Event :=
  let p := in_eventE (plugPrep e s) o
  (p.1, Event.addFd :: Event.setPollin :: Event.setPollout :: p.2)

/-- zmq_engine_t::terminate: unplug then delete this. -/
def terminateE (e : Engine) : Engine × List Event :=
  ({ unplugSt e with disposed := true }, unplugTr ++ [Event.dispose])

/-- zmq_engine_t::activate_in: set_pollin then a speculative in_event. -/
def activate_inE (e : Engine) (o : InOracle) : Engine × List Event :=
  let p := in_eventE { e with pollin := true } o
  (p.1, Event.setPollin :: p.2)

/-- zmq_engine_t::activate_out: set_pollout then a speculative out_event. -/
def activate_outE (e : Engine) (o : OutOracle) : Engine × List Event :=
  let p := out_eventE { e with pollout := true } o
  (p.1, Event.setPollout :: p.2)

/-- State after the zmq_engine_t constructor: empty cursors, no session,
unplugged. -/
def initE : Engine :=
  { inpos := 0, insize := 0, outpos := 0, outsize := 0,
    session := none, leftover_session := none,
    decoderSession := none, encoderSession := none,
    plugged := false, registered := false,
    pollin := false, pollout := false, disposed := false }

/-- States reachable from construction by the engine's public
operations, with the preconditions the C++ asserts. -/
inductive Reachable : Engine → Prop where
  | init : Reachable initE
  | plug (e : Engine) (s : Nat) (o : InOracle) : Reachable e →
      e.plugged = false → e.session = none → Reachable (plugE e s o).1
  | unplug (e : Engine) : Reachable e → e.plugged = true →
      Reachable (unplugSt e)
  | terminate (e : Engine) : Reachable e → e.plugged = true →
      Reachable (terminateE e).1
  | inEvent (e : Engine) (o : InOracle) : Reachable e →
      Reachable (in_eventE e o).1
  | outEvent (e : Engine) (o : OutOracle) : Reachable e →
      Reachable (out_eventE e o).1
  | actIn (e : Engine) (o : InOracle) : Reachable e →
      Reachable (activate_inE e o).1
  | actOut (e : Engine) (o : OutOracle) : Reachable e →
      Reachable (activate_outE e o).1
  | err (e : Engine) : Reachable e → e.session.isSome = true →
      Reachable (errorE e).1

/-- Session-slot invariant: a plugged engine has a session and no
leftover; an unplugged engine has no session. -/
def Inv (e : Engine) : Prop :=
  (e.plugged = true → e.session.isSome = true ∧ e.leftover_session = none) ∧
  (e.plugged = false → e.session = none)

/-- Recognizer for flush events. -/
def isFlush : Event → Bool
  | Event.flush _ => true
  | _ => false

/-- Flush routing soundness: whichever way the engine is plugged, the
slot the flush step will read holds session s. -/
def SessOk (s : Nat) (e : Engine) : Prop :=
  (e.plugged = true → e.session = some s) ∧
  (e.plugged = false → e.leftover_session = some s)

/-- Concrete plugged engine used by the witnesses: session 5 attached,
both interests active, empty buffers. -/
def ePlugged : Engine :=
  { inpos := 0, insize := 0, outpos := 0, outsize := 0,
    session := some 5, leftover_session := none,
    decoderSession := some 5, encoderSession := some 5,
    plugged := true, registered := true,
    pollin := true, pollout := true, disposed := false }

/-- Benign inbound oracle: read 8 bytes, consume all 8, no reentrancy. -/
def oBasic : InOracle :=
  { readResult := ReadResult.bytes 8,
    consumeResult := ConsumeOutcome.consumed 8,
    consumeUnplugs := false, flushUnplugs := false }

/-- Backpressure inbound oracle: read 8 bytes, consume only 3. -/
def oPartial : InOracle :=
  { readResult := ReadResult.bytes 8,
    consumeResult := ConsumeOutcome.consumed 3,
    consumeUnplugs := false, flushUnplugs := false }

/-- Teardown inbound oracle: the read reports a closed connection. -/
def oClosed : InOracle :=
  { readResult := ReadResult.closed,
    consumeResult := ConsumeOutcome.consumed 0,
    consumeUnplugs := false, flushUnplugs := false }

/-- Malformed-stream inbound oracle: the decoder reports a decode error. -/
def oDecErr : InOracle :=
  { readResult := ReadResult.bytes 8,
    consumeResult := ConsumeOutcome.decodeError,
    consumeUnplugs := false, flushUnplugs := false }

/-- Reentrant-teardown inbound oracle: the decoder callback unplugs the
engine from inside process_buffer, and the read also reported closed. -/
def oUnplugMid : InOracle :=
  { readResult := ReadResult.closed,
    consumeResult := ConsumeOutcome.consumed 0,
    consumeUnplugs := true, flushUnplugs := false }

/-- Concrete plugged engine with an 8-byte outbound chunk mid-write. -/
def eMidWrite : Engine :=
  { inpos := 0, insize := 0, outpos := 2, outsize := 8,
    session := some 5, leftover_session := none,
    decoderSession := some 5, encoderSession := some 5,
    plugged := true, registered := true,
    pollin := true, pollout := true, disposed := false }

/-- Outbound oracle whose socket write accepts 3 bytes. -/
def oWrite3 : OutOracle :=
  { dataLen := 0, dataUnplugs := false, writeResult := some 3 }

/-- Outbound oracle whose socket write fails. -/
def oWriteFail : OutOracle :=
  { dataLen := 0, dataUnplugs := false, writeResult := none }

/-- Outbound oracle whose encoder refill yields an empty chunk. -/
def oRefillZero : OutOracle :=
  { dataLen := 0, dataUnplugs := false, writeResult := some 0 }

/-- Outbound oracle whose encoder refill reentrantly unplugs the engine. -/
def oRefillUnplug : OutOracle :=
  { dataLen := 4, dataUnplugs := true, writeResult := some 0 }

theorem sessOk_unplugSt (s : Nat) (e : Engine) (hs : e.session = some s) :
    SessOk s (unplugSt e) := by
  constructor <;> intro h <;> simp [unplugSt, hs] at *

theorem sessOk_consumeStep (s : Nat) (e1 : Engine) (o : InOracle)
    (h : SessOk s e1) (hs : e1.session = some s) :
    SessOk s (consumeStep e1 o).1 := by
  unfold consumeStep
  split
  · exact sessOk_unplugSt s e1 hs
  · exact h

theorem sessOk_adjustStep (s : Nat) (e2 : Engine) (d : Bool) (o : InOracle)
    (h : SessOk s e2) : SessOk s (adjustStep e2 d o).1 := by
  unfold adjustStep
  rcases o.consumeResult with k | _
  · dsimp only
    split
    · exact ⟨fun hp => h.1 hp, fun hp => h.2 hp⟩
    · exact ⟨fun hp => h.1 hp, fun hp => h.2 hp⟩
  · exact h

theorem flushStep_filter (e3 : Engine) (o : InOracle) (s : Nat)
    (h : SessOk s e3) :
    List.filter isFlush (flushStep e3 o).2 = [Event.flush s] := by
  cases hpl : e3.plugged
  · simp [flushStep, hpl, h.2 hpl, isFlush]
  · rw [flushStep, if_pos hpl, h.1 hpl]
    cases hfu : o.flushUnplugs <;> simp [hfu, isFlush]

theorem errorStep_filter (e4 : Engine) (d : Bool) :
    List.filter isFlush (errorStep e4 d).2 = [] := by
  unfold errorStep errorE
  split
  · split <;> simp [isFlush]
  · simp

theorem readTr_filter (e : Engine) (o : InOracle) :
    List.filter isFlush (readTr e o) = [] := by
  unfold readTr; split <;> simp [isFlush]

theorem consumeStep_filter (e1 : Engine) (o : InOracle) :
    List.filter isFlush (consumeStep e1 o).2 = [] := by
  unfold consumeStep unplugTr; split <;> simp [isFlush]

theorem adjustStep_filter (e2 : Engine) (d : Bool) (o : InOracle) :
    List.filter isFlush (adjustStep e2 d o).2.2 = [] := by
  unfold adjustStep
  rcases o.consumeResult with k | _
  · dsimp only; split <;> simp [isFlush]
  · simp

/-- C1: In every in_event call, after the decoder consume step, flush is
delivered exactly once: to the current session if the engine is still
plugged, otherwise to the non-null transient (leftover) session; on
every in_event call, including Closed/TransportError reads and
DecodeError consume outcomes.  Under the entry conditions (plugged
engine holding session s with an empty leftover slot) both routes
deliver exactly one flush, and its target is s: the current session
when still plugged, and the transient slot — which unplug filled with
s — otherwise. -/
theorem in_event_flush_exactly_once (e : Engine) (o : InOracle) (s : Nat)
    (hp : e.plugged = true) (hs : e.session = some s)
    (hl : e.leftover_session = none) :
    List.filter isFlush (in_eventE e o).2 = [Event.flush s] := by
  unfold in_eventE
  dsimp only
  rw [List.filter_append, List.filter_append, List.filter_append,
      List.filter_append, List.filter_append]
  have hsess1 : SessOk s { e with inpos := readPos e o, insize := readLen e o } := by
    exact ⟨fun _ => hs, fun hf => by rw [hp] at hf; cases hf⟩
  have hsess2 := sessOk_consumeStep s _ o hsess1 hs
  have hsess3 := sessOk_adjustStep s _ (readDisc e o) o hsess2
  rw [readTr_filter, consumeStep_filter, adjustStep_filter,
      flushStep_filter _ o s hsess3, errorStep_filter]
  simp [isFlush]

/-- Witness for C1: the flush-once property at a concrete engine and
oracle, every hypothesis discharged by computation. -/
theorem in_event_flush_exactly_once_witness :
    ePlugged.plugged = true ∧ ePlugged.session = some 5 ∧
    ePlugged.leftover_session = none ∧
    List.filter isFlush (in_eventE ePlugged oBasic).2 = [Event.flush 5] :=
  ⟨rfl, rfl, rfl, in_event_flush_exactly_once ePlugged oBasic 5 rfl rfl rfl⟩

@[simp] theorem unplugSt_inpos (e : Engine) : (unplugSt e).inpos = e.inpos := rfl

@[simp] theorem unplugSt_insize (e : Engine) : (unplugSt e).insize = e.insize := rfl

@[simp] theorem unplugSt_outpos (e : Engine) : (unplugSt e).outpos = e.outpos := rfl

@[simp] theorem unplugSt_outsize (e : Engine) : (unplugSt e).outsize = e.outsize := rfl

@[simp] theorem unplugSt_pollin (e : Engine) : (unplugSt e).pollin = e.pollin := rfl

@[simp] theorem unplugSt_pollout (e : Engine) : (unplugSt e).pollout = e.pollout := rfl

@[simp] theorem unplugSt_disposed (e : Engine) : (unplugSt e).disposed = e.disposed := rfl

@[simp] theorem unplugSt_plugged (e : Engine) : (unplugSt e).plugged = false := rfl

@[simp] theorem unplugSt_session (e : Engine) : (unplugSt e).session = none := rfl

@[simp] theorem unplugSt_registered (e : Engine) : (unplugSt e).registered = false := rfl

@[simp] theorem unplugSt_leftover (e : Engine) :
    (unplugSt e).leftover_session = e.session := rfl

theorem flushStep_state (e3 : Engine) (o : InOracle) :
    (flushStep e3 o).1 = e3 ∨ (flushStep e3 o).1 = unplugSt e3 := by
  unfold flushStep
  split
  · rcases hs : e3.session with _ | s
    · simp [hs]
    · rcases hfu : o.flushUnplugs <;> simp [hs, hfu]
  · rcases hs : e3.leftover_session with _ | s <;> simp [hs]

theorem errorStep_state (e4 : Engine) (d : Bool) :
    (errorStep e4 d).1 = e4 ∨
    (errorStep e4 d).1 = { unplugSt e4 with disposed := true } := by
  unfold errorStep errorE
  split
  · rcases hs : e4.session with _ | s <;> simp [hs]
  · left; rfl

theorem flushStep_buf (e3 : Engine) (o : InOracle) :
    (flushStep e3 o).1.inpos = e3.inpos ∧ (flushStep e3 o).1.insize = e3.insize ∧
    (flushStep e3 o).1.pollin = e3.pollin ∧
    (flushStep e3 o).1.outpos = e3.outpos ∧
    (flushStep e3 o).1.outsize = e3.outsize ∧
    (flushStep e3 o).1.pollout = e3.pollout ∧
    (flushStep e3 o).1.disposed = e3.disposed := by
  rcases flushStep_state e3 o with h | h <;> rw [h] <;> simp

theorem errorStep_buf (e4 : Engine) (d : Bool) :
    (errorStep e4 d).1.inpos = e4.inpos ∧ (errorStep e4 d).1.insize = e4.insize ∧
    (errorStep e4 d).1.pollin = e4.pollin ∧
    (errorStep e4 d).1.outpos = e4.outpos ∧
    (errorStep e4 d).1.outsize = e4.outsize ∧
    (errorStep e4 d).1.pollout = e4.pollout := by
  rcases errorStep_state e4 d with h | h <;> rw [h] <;> simp

theorem in_event_fst (e : Engine) (o : InOracle) :
    (in_eventE e o).1 =
      (errorStep (flushStep (adjustStep (consumeStep
          { e with inpos := readPos e o, insize := readLen e o } o).1
          (readDisc e o) o).1 o).1
        (adjustStep (consumeStep
          { e with inpos := readPos e o, insize := readLen e o } o).1
          (readDisc e o) o).2.1).1 := rfl

theorem in_event_snd (e : Engine) (o : InOracle) :
    (in_eventE e o).2 =
      readTr e o ++ [Event.consume (readPos e o) (readLen e o)]
        ++ (consumeStep { e with inpos := readPos e o, insize := readLen e o } o).2
        ++ (adjustStep (consumeStep
              { e with inpos := readPos e o, insize := readLen e o } o).1
              (readDisc e o) o).2.2
        ++ (flushStep (adjustStep (consumeStep
              { e with inpos := readPos e o, insize := readLen e o } o).1
              (readDisc e o) o).1 o).2
        ++ (errorStep (flushStep (adjustStep (consumeStep
              { e with inpos := readPos e o, insize := readLen e o } o).1
              (readDisc e o) o).1 o).1
            (adjustStep (consumeStep
              { e with inpos := readPos e o, insize := readLen e o } o).1
              (readDisc e o) o).2.1).2 := rfl

theorem consumeStep_no (e1 : Engine) (o : InOracle)
    (h : o.consumeUnplugs = false) : consumeStep e1 o = (e1, []) := by
  unfold consumeStep
  rw [if_neg]
  simp [h]

theorem consumeStep_buf (e1 : Engine) (o : InOracle) :
    (consumeStep e1 o).1.inpos = e1.inpos ∧
    (consumeStep e1 o).1.insize = e1.insize ∧
    (consumeStep e1 o).1.pollin = e1.pollin := by
  unfold consumeStep
  split <;> simp

theorem adjustStep_consumed (e2 : Engine) (d : Bool) (o : InOracle) (k : Nat)
    (h : o.consumeResult = ConsumeOutcome.consumed k) :
    (adjustStep e2 d o).1.inpos = e2.inpos + k ∧
    (adjustStep e2 d o).1.insize = e2.insize - k ∧
    (adjustStep e2 d o).2.1 = d := by
  unfold adjustStep
  rw [h]
  dsimp only
  split <;> simp

theorem adjustStep_pause (e2 : Engine) (d : Bool) (o : InOracle) (k : Nat)
    (h : o.consumeResult = ConsumeOutcome.consumed k)
    (hk : k < e2.insize) (hp : e2.plugged = true) :
    (adjustStep e2 d o).1.pollin = false := by
  unfold adjustStep
  rw [h]
  dsimp only
  rw [if_pos ⟨hk, hp⟩]

theorem readT_not_consumeStep (e1 : Engine) (o : InOracle) :
    Event.readT ∉ (consumeStep e1 o).2 := by
  unfold consumeStep unplugTr
  split <;> simp

theorem readT_not_adjustStep (e2 : Engine) (d : Bool) (o : InOracle) :
    Event.readT ∉ (adjustStep e2 d o).2.2 := by
  unfold adjustStep
  rcases o.consumeResult with k | _
  · dsimp only
    split <;> simp
  · simp

theorem readT_not_flushStep (e3 : Engine) (o : InOracle) :
    Event.readT ∉ (flushStep e3 o).2 := by
  unfold flushStep
  split
  · rcases hs : e3.session with _ | s
    · simp [hs]
    · rcases hfu : o.flushUnplugs <;> simp [hs, hfu]
  · rcases hs : e3.leftover_session with _ | s <;> simp [hs]

theorem readT_not_errorStep (e4 : Engine) (d : Bool) :
    Event.readT ∉ (errorStep e4 d).2 := by
  unfold errorStep errorE
  split
  · rcases hs : e4.session with _ | s <;> simp [hs]
  · simp

/-- C2: In in_event, when consume returns Consumed(k) with k at most the
available bytes, the inbound cursor advances by exactly k and the
remaining length decreases by k; if k is strictly less than the
available bytes and the engine is still plugged (no reentrant unplug in
the consume callback), read interest is paused; and when bytes were
already buffered at entry, in_event issues no new transport read and
retries consume on exactly the buffered remainder. -/
theorem in_event_consumed_advances (e : Engine) (o : InOracle) (k : Nat)
    (hp : e.plugged = true)
    (hres : o.consumeResult = ConsumeOutcome.consumed k)
    (hk : k ≤ readLen e o) :
    (in_eventE e o).1.inpos = readPos e o + k ∧
    (in_eventE e o).1.insize = readLen e o - k ∧
    (k < readLen e o → o.consumeUnplugs = false →
       (in_eventE e o).1.pollin = false) ∧
    (e.insize ≠ 0 →
       Event.readT ∉ (in_eventE e o).2 ∧
       Event.consume e.inpos e.insize ∈ (in_eventE e o).2) := by
  have hbuf :=
    flushStep_buf (adjustStep (consumeStep
      { e with inpos := readPos e o, insize := readLen e o } o).1
      (readDisc e o) o).1 o
  have hbufE :=
    errorStep_buf (flushStep (adjustStep (consumeStep
      { e with inpos := readPos e o, insize := readLen e o } o).1
      (readDisc e o) o).1 o).1
      (adjustStep (consumeStep
        { e with inpos := readPos e o, insize := readLen e o } o).1
        (readDisc e o) o).2.1
  have hcbuf := consumeStep_buf
      { e with inpos := readPos e o, insize := readLen e o } o
  have hadj := adjustStep_consumed (consumeStep
      { e with inpos := readPos e o, insize := readLen e o } o).1
      (readDisc e o) o k hres
  refine ⟨?_, ?_, ?_, ?_⟩
  · rw [in_event_fst, hbufE.1, hbuf.1, hadj.1, hcbuf.1]
  · rw [in_event_fst, hbufE.2.1, hbuf.2.1, hadj.2.1, hcbuf.2.1]
  · intro hlt hcu
    rw [in_event_fst, hbufE.2.2.1, hbuf.2.2.1]
    refine adjustStep_pause _ _ o k hres ?_ ?_
    · rw [consumeStep_no _ o hcu]
      exact hlt
    · rw [consumeStep_no _ o hcu]
      exact hp
  · intro hin
    constructor
    · rw [in_event_snd]
      intro hmem
      rcases List.mem_append.1 hmem with hmem | hmem
      · rcases List.mem_append.1 hmem with hmem | hmem
        · rcases List.mem_append.1 hmem with hmem | hmem
          · rcases List.mem_append.1 hmem with hmem | hmem
            · rcases List.mem_append.1 hmem with hmem | hmem
              · unfold readTr at hmem
                rw [if_neg hin] at hmem
                simp at hmem
              · simp at hmem
            · exact readT_not_consumeStep _ o hmem
          · exact readT_not_adjustStep _ _ o hmem
        · exact readT_not_flushStep _ o hmem
      · exact readT_not_errorStep _ _ hmem
    · rw [in_event_snd]
      have h1 : readPos e o = e.inpos := by unfold readPos; rw [if_neg hin]
      have h2 : readLen e o = e.insize := by unfold readLen; rw [if_neg hin]
      rw [h1, h2]
      simp

/-- Witness for C2 at a concrete engine and oracle: 8 bytes read, 3
consumed, cursor at 3, 5 bytes left, read interest paused. -/
theorem in_event_consumed_advances_witness :
    ePlugged.plugged = true ∧
    oPartial.consumeResult = ConsumeOutcome.consumed 3 ∧
    3 ≤ readLen ePlugged oPartial ∧
    (in_eventE ePlugged oPartial).1.inpos = readPos ePlugged oPartial + 3 ∧
    (in_eventE ePlugged oPartial).1.insize = readLen ePlugged oPartial - 3 ∧
    (3 < readLen ePlugged oPartial → oPartial.consumeUnplugs = false →
       (in_eventE ePlugged oPartial).1.pollin = false) ∧
    (ePlugged.insize ≠ 0 →
       Event.readT ∉ (in_eventE ePlugged oPartial).2 ∧
       Event.consume ePlugged.inpos ePlugged.insize ∈
         (in_eventE ePlugged oPartial).2) := by
  refine ⟨rfl, rfl, by decide, ?_⟩
  have h := in_event_consumed_advances ePlugged oPartial 3 rfl rfl (by decide)
  exact ⟨h.1, h.2.1, h.2.2.1, h.2.2.2⟩

theorem consumeStep_yes (e1 : Engine) (o : InOracle)
    (h : o.consumeUnplugs = true) (hp : e1.plugged = true) :
    consumeStep e1 o = (unplugSt e1, unplugTr) := by
  unfold consumeStep
  rw [if_pos ⟨h, hp⟩]

theorem adjustStep_decodeError (e2 : Engine) (d : Bool) (o : InOracle)
    (h : o.consumeResult = ConsumeOutcome.decodeError) :
    adjustStep e2 d o = (e2, true, []) := by
  unfold adjustStep
  rw [h]

theorem adjustStep_keeps (e2 : Engine) (d : Bool) (o : InOracle) :
    (adjustStep e2 d o).1.session = e2.session ∧
    (adjustStep e2 d o).1.leftover_session = e2.leftover_session ∧
    (adjustStep e2 d o).1.plugged = e2.plugged ∧
    (adjustStep e2 d o).1.disposed = e2.disposed := by
  unfold adjustStep
  rcases o.consumeResult with k | _
  · dsimp only
    split <;> simp
  · simp

theorem flushStep_plain (e3 : Engine) (o : InOracle) (s : Nat)
    (hp : e3.plugged = true) (hs : e3.session = some s)
    (hfu : o.flushUnplugs = false) :
    flushStep e3 o = (e3, [Event.flush s]) := by
  unfold flushStep
  rw [if_pos hp, hs]
  dsimp only
  rw [if_neg]
  simp [hfu]

theorem flushStep_unplug (e3 : Engine) (o : InOracle) (s : Nat)
    (hp : e3.plugged = true) (hs : e3.session = some s)
    (hfu : o.flushUnplugs = true) :
    flushStep e3 o = (unplugSt e3, [Event.flush s, Event.rmFd]) := by
  unfold flushStep
  rw [if_pos hp, hs]
  dsimp only
  rw [if_pos hfu]

theorem flushStep_unplugged_state (e3 : Engine) (o : InOracle)
    (hp : e3.plugged = false) : (flushStep e3 o).1 = e3 := by
  unfold flushStep
  rw [if_neg]
  · rcases hs : e3.leftover_session with _ | s <;> simp [hs]
  · simp [hp]

theorem errorStep_fire (e4 : Engine) (s : Nat) (hs : e4.session = some s) :
    errorStep e4 true = ({ unplugSt e4 with disposed := true },
                         [Event.detach s, Event.rmFd, Event.dispose]) := by
  unfold errorStep
  rw [if_pos]
  · unfold errorE
    rw [hs]
  · simp [hs]

theorem errorStep_none (e4 : Engine) (d : Bool) (h : e4.session = none) :
    errorStep e4 d = (e4, []) := by
  unfold errorStep
  rw [if_neg]
  simp [h]

theorem errorStep_false (e4 : Engine) : errorStep e4 false = (e4, []) := by
  unfold errorStep
  rw [if_neg]
  simp

theorem refillFlush_state (e2 : Engine) : (refillFlush e2).1 = e2 := by
  unfold refillFlush
  rcases hs : e2.leftover_session with _ | s <;> simp [hs]

theorem readTr_cases (e : Engine) (o : InOracle) (x : Event)
    (hx : x ∈ readTr e o) : x = Event.readT := by
  unfold readTr at hx
  rcases hi : e.insize with _ | n <;> rw [hi] at hx <;> simp at hx
  exact hx

theorem consumeStep_tr_cases (e1 : Engine) (o : InOracle) (x : Event)
    (hx : x ∈ (consumeStep e1 o).2) : x = Event.rmFd := by
  unfold consumeStep unplugTr at hx
  rcases hx' : (if o.consumeUnplugs = true ∧ e1.plugged = true then
      (unplugSt e1, [Event.rmFd]) else (e1, ([] : List Event))) with _
  revert hx
  split <;> simp

theorem adjustStep_tr_cases (e2 : Engine) (d : Bool) (o : InOracle) (x : Event)
    (hx : x ∈ (adjustStep e2 d o).2.2) : x = Event.resetPollin := by
  unfold adjustStep at hx
  revert hx
  rcases o.consumeResult with k | _
  · dsimp only
    split <;> simp
  · simp

theorem flushStep_tr_cases (e3 : Engine) (o : InOracle) (x : Event)
    (hx : x ∈ (flushStep e3 o).2) :
    (∃ u, x = Event.flush u) ∨ x = Event.rmFd := by
  unfold flushStep at hx
  revert hx
  split
  · rcases hs : e3.session with _ | s
    · simp [hs]
    · rcases hfu : o.flushUnplugs <;> simp [hs, hfu] <;> intro h <;> tauto
  · rcases hs : e3.leftover_session with _ | s <;> simp [hs]
    tauto

theorem errorStep_tr_cases (e4 : Engine) (d : Bool) (x : Event)
    (hx : x ∈ (errorStep e4 d).2) :
    (∃ u, x = Event.detach u) ∨ x = Event.rmFd ∨ x = Event.dispose := by
  unfold errorStep errorE at hx
  revert hx
  split
  · rcases hs : e4.session with _ | s <;> simp [hs]
    intro h
    tauto
  · simp

/-- C3: In in_event, a read that reports Closed (or a transport error,
the same -1 return) sets the disconnection flag and forces the buffered
length to 0; consume is still invoked on the zero-length buffer, flush
still runs once, and then, the session reference being live, error()
fires: the session receives detach, the engine deregisters from the
poller and is disposed. -/
theorem in_event_closed_teardown (e : Engine) (o : InOracle) (s : Nat)
    (hp : e.plugged = true) (hs : e.session = some s) (hin : e.insize = 0)
    (hr : o.readResult = ReadResult.closed)
    (hc : o.consumeResult = ConsumeOutcome.consumed 0)
    (hcu : o.consumeUnplugs = false) (hfu : o.flushUnplugs = false) :
    (in_eventE e o).2 =
      [Event.readT, Event.consume 0 0, Event.flush s, Event.detach s,
       Event.rmFd, Event.dispose] ∧
    (in_eventE e o).1.insize = 0 ∧
    (in_eventE e o).1.session = none ∧
    (in_eventE e o).1.registered = false ∧
    (in_eventE e o).1.disposed = true := by
  have h0 : readPos e o = 0 := by
    unfold readPos
    rw [if_pos hin]
  have h1 : readLen e o = 0 := by
    unfold readLen
    rw [if_pos hin, hr]
  have h2 : readDisc e o = true := by
    unfold readDisc
    rw [if_pos hin, hr]
  have h3 : readTr e o = [Event.readT] := by
    unfold readTr
    rw [if_pos hin]
  have hcs := consumeStep_no
      { e with inpos := readPos e o, insize := readLen e o } o hcu
  have hadj2 : adjustStep { e with inpos := readPos e o, insize := readLen e o }
      (readDisc e o) o =
      ({ e with inpos := readPos e o, insize := readLen e o }, true, []) := by
    unfold adjustStep
    rw [hc]
    dsimp only
    rw [if_neg, h2]
    · simp
    · rw [h1]
      simp
  have hfl := flushStep_plain
      { e with inpos := readPos e o, insize := readLen e o } o s hp hs hfu
  have herr := errorStep_fire
      { e with inpos := readPos e o, insize := readLen e o } s hs
  have key : in_eventE e o =
      ({ unplugSt { e with inpos := readPos e o, insize := readLen e o }
           with disposed := true },
       readTr e o ++ [Event.consume (readPos e o) (readLen e o)] ++ [] ++ []
         ++ [Event.flush s] ++ [Event.detach s, Event.rmFd, Event.dispose]) := by
    unfold in_eventE
    dsimp only
    rw [hcs]
    dsimp only
    rw [hadj2]
    dsimp only
    rw [hfl]
    dsimp only
    rw [herr]
  refine ⟨?_, ?_, ?_, ?_, ?_⟩ <;> rw [key] <;> simp [h0, h1, h3]

/-- Witness for C3: concrete plugged engine, read reports Closed, the
full teardown trace is produced. -/
theorem in_event_closed_teardown_witness :
    ePlugged.plugged = true ∧ ePlugged.session = some 5 ∧
    ePlugged.insize = 0 ∧
    (in_eventE ePlugged oClosed).2 =
      [Event.readT, Event.consume 0 0, Event.flush 5, Event.detach 5,
       Event.rmFd, Event.dispose] ∧
    (in_eventE ePlugged oClosed).1.disposed = true := by
  have h := in_event_closed_teardown ePlugged oClosed 5 rfl rfl rfl rfl rfl rfl rfl
  exact ⟨rfl, rfl, rfl, h.1, h.2.2.2.2⟩

/-- C7: In in_event, when the decoder reports a decode error, the
disconnection flag is set and neither the inbound cursor nor the
remaining length is adjusted (the cursor stays where the read step left
it); no resynchronization happens — no read-interest change is emitted
by the consume step, and when a session reference still exists at the
end of the call error() aborts the connection. -/
theorem in_event_decode_error_no_advance (e : Engine) (o : InOracle) (s : Nat)
    (hp : e.plugged = true) (hs : e.session = some s)
    (hres : o.consumeResult = ConsumeOutcome.decodeError) :
    (in_eventE e o).1.inpos = readPos e o ∧
    (in_eventE e o).1.insize = readLen e o ∧
    Event.resetPollin ∉ (in_eventE e o).2 ∧
    (o.consumeUnplugs = false → o.flushUnplugs = false →
       Event.detach s ∈ (in_eventE e o).2 ∧
       (in_eventE e o).1.disposed = true) := by
  have hbuf :=
    flushStep_buf (adjustStep (consumeStep
      { e with inpos := readPos e o, insize := readLen e o } o).1
      (readDisc e o) o).1 o
  have hbufE :=
    errorStep_buf (flushStep (adjustStep (consumeStep
      { e with inpos := readPos e o, insize := readLen e o } o).1
      (readDisc e o) o).1 o).1
      (adjustStep (consumeStep
        { e with inpos := readPos e o, insize := readLen e o } o).1
        (readDisc e o) o).2.1
  have hcbuf := consumeStep_buf
      { e with inpos := readPos e o, insize := readLen e o } o
  have hadj := adjustStep_decodeError (consumeStep
      { e with inpos := readPos e o, insize := readLen e o } o).1
      (readDisc e o) o hres
  refine ⟨?_, ?_, ?_, ?_⟩
  · rw [in_event_fst, hbufE.1, hbuf.1, hadj, hcbuf.1]
  · rw [in_event_fst, hbufE.2.1, hbuf.2.1, hadj, hcbuf.2.1]
  · rw [in_event_snd]
    intro hmem
    rcases List.mem_append.1 hmem with hmem | hmem
    · rcases List.mem_append.1 hmem with hmem | hmem
      · rcases List.mem_append.1 hmem with hmem | hmem
        · rcases List.mem_append.1 hmem with hmem | hmem
          · rcases List.mem_append.1 hmem with hmem | hmem
            · exact absurd (readTr_cases e o _ hmem) (by simp)
            · simp at hmem
          · exact absurd (consumeStep_tr_cases _ o _ hmem) (by simp)
        · rw [hadj] at hmem
          simp at hmem
      · rcases flushStep_tr_cases _ o _ hmem with ⟨u, h⟩ | h <;> simp at h
    · rcases errorStep_tr_cases _ _ _ hmem with ⟨u, h⟩ | h | h <;> simp at h
  · intro hcu hfu
    have hcs := consumeStep_no
        { e with inpos := readPos e o, insize := readLen e o } o hcu
    have hfl := flushStep_plain
        { e with inpos := readPos e o, insize := readLen e o } o s hp hs hfu
    have herr := errorStep_fire
        { e with inpos := readPos e o, insize := readLen e o } s hs
    have key : in_eventE e o =
        ({ unplugSt { e with inpos := readPos e o, insize := readLen e o }
             with disposed := true },
         readTr e o ++ [Event.consume (readPos e o) (readLen e o)] ++ [] ++ []
           ++ [Event.flush s]
           ++ [Event.detach s, Event.rmFd, Event.dispose]) := by
      unfold in_eventE
      dsimp only
      rw [hcs]
      dsimp only
      rw [adjustStep_decodeError _ (readDisc e o) o hres]
      dsimp only
      rw [hfl]
      dsimp only
      rw [herr]
    rw [key]
    constructor
    · simp
    · rfl

/-- Witness for C7 at a concrete engine and decode-error oracle. -/
theorem in_event_decode_error_no_advance_witness :
    ePlugged.plugged = true ∧ ePlugged.session = some 5 ∧
    oDecErr.consumeResult = ConsumeOutcome.decodeError ∧
    (in_eventE ePlugged oDecErr).1.inpos = readPos ePlugged oDecErr ∧
    (in_eventE ePlugged oDecErr).1.insize = readLen ePlugged oDecErr ∧
    Event.resetPollin ∉ (in_eventE ePlugged oDecErr).2 ∧
    (oDecErr.consumeUnplugs = false → oDecErr.flushUnplugs = false →
       Event.detach 5 ∈ (in_eventE ePlugged oDecErr).2 ∧
       (in_eventE ePlugged oDecErr).1.disposed = true) := by
  have h := in_event_decode_error_no_advance ePlugged oDecErr 5 rfl rfl rfl
  exact ⟨rfl, rfl, rfl, h.1, h.2.1, h.2.2.1, h.2.2.2⟩

/-- C10: If the engine is reentrantly unplugged during in_event's
consume or flush step, so that its session reference is null at the end
of the call, then even when the disconnection flag was set in that same
call error() is not invoked: no detach is delivered to any session and
the engine is not disposed by that in_event call. -/
theorem reentrant_unplug_no_error (e : Engine) (o : InOracle) (s : Nat)
    (hp : e.plugged = true) (hs : e.session = some s)
    (hu : o.consumeUnplugs = true ∨ o.flushUnplugs = true) :
    (in_eventE e o).1.session = none ∧
    (∀ t, Event.detach t ∉ (in_eventE e o).2) ∧
    Event.dispose ∉ (in_eventE e o).2 ∧
    (in_eventE e o).1.disposed = e.disposed := by
  have hp1 :
      ({ e with inpos := readPos e o, insize := readLen e o } : Engine).plugged
        = true := hp
  have hs1 :
      ({ e with inpos := readPos e o, insize := readLen e o } : Engine).session
        = some s := hs
  have hflush :
      (flushStep (adjustStep (consumeStep
        { e with inpos := readPos e o, insize := readLen e o } o).1
        (readDisc e o) o).1 o).1.session = none ∧
      (flushStep (adjustStep (consumeStep
        { e with inpos := readPos e o, insize := readLen e o } o).1
        (readDisc e o) o).1 o).1.disposed = e.disposed := by
    cases hcu : o.consumeUnplugs
    · have hfu : o.flushUnplugs = true := by
        rcases hu with h | h
        · rw [hcu] at h
          cases h
        · exact h
      rw [consumeStep_no _ o hcu]
      have hk := adjustStep_keeps
          { e with inpos := readPos e o, insize := readLen e o }
          (readDisc e o) o
      rw [flushStep_unplug _ o s (by rw [hk.2.2.1]; exact hp1)
            (by rw [hk.1]; exact hs1) hfu]
      exact ⟨rfl, hk.2.2.2⟩
    · rw [consumeStep_yes _ o hcu hp1]
      have hk := adjustStep_keeps
          (unplugSt { e with inpos := readPos e o, insize := readLen e o })
          (readDisc e o) o
      rw [flushStep_unplugged_state _ o (by rw [hk.2.2.1]; simp)]
      refine ⟨by rw [hk.1]; simp, by rw [hk.2.2.2]; simp⟩
  have herr := errorStep_none
      (flushStep (adjustStep (consumeStep
        { e with inpos := readPos e o, insize := readLen e o } o).1
        (readDisc e o) o).1 o).1
      (adjustStep (consumeStep
        { e with inpos := readPos e o, insize := readLen e o } o).1
        (readDisc e o) o).2.1
      hflush.1
  refine ⟨?_, ?_, ?_, ?_⟩
  · rw [in_event_fst, herr]
    exact hflush.1
  · intro t
    rw [in_event_snd]
    intro hmem
    rcases List.mem_append.1 hmem with hmem | hmem
    · rcases List.mem_append.1 hmem with hmem | hmem
      · rcases List.mem_append.1 hmem with hmem | hmem
        · rcases List.mem_append.1 hmem with hmem | hmem
          · rcases List.mem_append.1 hmem with hmem | hmem
            · exact absurd (readTr_cases e o _ hmem) (by simp)
            · simp at hmem
          · exact absurd (consumeStep_tr_cases _ o _ hmem) (by simp)
        · exact absurd (adjustStep_tr_cases _ _ o _ hmem) (by simp)
      · rcases flushStep_tr_cases _ o _ hmem with ⟨u, h⟩ | h <;> simp at h
    · rw [herr] at hmem
      simp at hmem
  · rw [in_event_snd]
    intro hmem
    rcases List.mem_append.1 hmem with hmem | hmem
    · rcases List.mem_append.1 hmem with hmem | hmem
      · rcases List.mem_append.1 hmem with hmem | hmem
        · rcases List.mem_append.1 hmem with hmem | hmem
          · rcases List.mem_append.1 hmem with hmem | hmem
            · exact absurd (readTr_cases e o _ hmem) (by simp)
            · simp at hmem
          · exact absurd (consumeStep_tr_cases _ o _ hmem) (by simp)
        · exact absurd (adjustStep_tr_cases _ _ o _ hmem) (by simp)
      · rcases flushStep_tr_cases _ o _ hmem with ⟨u, h⟩ | h <;> simp at h
    · rw [herr] at hmem
      simp at hmem
  · rw [in_event_fst, herr]
    exact hflush.2

/-- Witness for C10: disconnection is reported and the consume callback
reentrantly unplugs the engine; no detach, no disposal. -/
theorem reentrant_unplug_no_error_witness :
    ePlugged.plugged = true ∧ ePlugged.session = some 5 ∧
    (oUnplugMid.consumeUnplugs = true ∨ oUnplugMid.flushUnplugs = true) ∧
    (in_eventE ePlugged oUnplugMid).1.session = none ∧
    (∀ t, Event.detach t ∉ (in_eventE ePlugged oUnplugMid).2) ∧
    Event.dispose ∉ (in_eventE ePlugged oUnplugMid).2 ∧
    (in_eventE ePlugged oUnplugMid).1.disposed = ePlugged.disposed := by
  have h := reentrant_unplug_no_error ePlugged oUnplugMid 5 rfl rfl (Or.inl rfl)
  exact ⟨rfl, rfl, Or.inl rfl, h.1, h.2.1, h.2.2.1, h.2.2.2⟩

theorem out_event_full (e : Engine) (o : OutOracle) (h : ¬ e.outsize = 0) :
    out_eventE e o = writeStep e o := by
  unfold out_eventE
  rw [if_neg h]

theorem writeStep_ok (e : Engine) (o : OutOracle) (n : Nat)
    (hw : o.writeResult = some n) :
    writeStep e o =
      ({ e with outpos := e.outpos + n, outsize := e.outsize - n },
       [Event.writeT e.outpos e.outsize]) := by
  unfold writeStep
  rw [hw]

theorem writeStep_fail (e : Engine) (o : OutOracle) (s : Nat)
    (hw : o.writeResult = none) (hs : e.session = some s) :
    writeStep e o =
      ({ unplugSt e with disposed := true },
       [Event.writeT e.outpos e.outsize, Event.detach s,
        Event.rmFd, Event.dispose]) := by
  unfold writeStep
  rw [hw]
  dsimp only
  unfold errorE
  rw [hs]

/-- C4: In out_event with a non-empty outbound buffer, a failed socket
write invokes error() and returns (detach, deregister, dispose); a
successful write of n bytes advances the outbound cursor by n and
shrinks the remaining length by n; a partial write is not an error and
leaves the remainder buffered; and emptying the buffer by a successful
write does not itself pause write interest — the trace contains no
resetPollout and the pollout flag is untouched. -/
theorem out_event_write_paths (e : Engine) (o : OutOracle) (s : Nat)
    (ho : ¬ e.outsize = 0) (hs : e.session = some s) :
    (o.writeResult = none →
       (out_eventE e o).2 = [Event.writeT e.outpos e.outsize, Event.detach s,
                             Event.rmFd, Event.dispose] ∧
       (out_eventE e o).1.disposed = true) ∧
    (∀ n, o.writeResult = some n →
       (out_eventE e o).1.outpos = e.outpos + n ∧
       (out_eventE e o).1.outsize = e.outsize - n ∧
       (out_eventE e o).1.disposed = e.disposed ∧
       (out_eventE e o).1.pollout = e.pollout ∧
       (out_eventE e o).2 = [Event.writeT e.outpos e.outsize]) := by
  rw [out_event_full e o ho]
  constructor
  · intro hw
    rw [writeStep_fail e o s hw hs]
    exact ⟨rfl, rfl⟩
  · intro n hw
    rw [writeStep_ok e o n hw]
    exact ⟨rfl, rfl, rfl, rfl, rfl⟩

/-- Witness for C4: 8-byte buffer mid-write, socket accepts 3 bytes on
the success branch and fails on the error branch. -/
theorem out_event_write_paths_witness :
    ¬ eMidWrite.outsize = 0 ∧ eMidWrite.session = some 5 ∧
    ((out_eventE eMidWrite oWrite3).1.outpos = eMidWrite.outpos + 3 ∧
     (out_eventE eMidWrite oWrite3).1.outsize = eMidWrite.outsize - 3 ∧
     (out_eventE eMidWrite oWrite3).1.pollout = eMidWrite.pollout) ∧
    ((out_eventE eMidWrite oWriteFail).2 =
       [Event.writeT eMidWrite.outpos eMidWrite.outsize, Event.detach 5,
        Event.rmFd, Event.dispose] ∧
     (out_eventE eMidWrite oWriteFail).1.disposed = true) := by
  have h1 := (out_event_write_paths eMidWrite oWrite3 5 (by decide) rfl).2 3 rfl
  have h2 := (out_event_write_paths eMidWrite oWriteFail 5 (by decide) rfl).1 rfl
  exact ⟨by decide, rfl, ⟨h1.1, h1.2.1, h1.2.2.2.1⟩, h2⟩

/-- C5: In out_event entered with an empty outbound buffer, a new chunk
is acquired from the encoder; if that acquisition reentrantly unplugged
the engine, the transient session is flushed once and out_event returns
without issuing any socket write; if the acquired chunk has zero
length, write interest is paused and out_event returns without issuing
any socket write. -/
theorem out_event_refill_paths (e : Engine) (o : OutOracle) (s : Nat)
    (ho : e.outsize = 0) (hp : e.plugged = true) (hs : e.session = some s) :
    (o.dataUnplugs = true →
       (out_eventE e o).2 = [Event.getData, Event.rmFd, Event.flush s] ∧
       (out_eventE e o).1.plugged = false ∧
       (∀ p l, Event.writeT p l ∉ (out_eventE e o).2)) ∧
    (o.dataUnplugs = false → o.dataLen = 0 →
       (out_eventE e o).2 = [Event.getData, Event.resetPollout] ∧
       (out_eventE e o).1.pollout = false ∧
       (∀ p l, Event.writeT p l ∉ (out_eventE e o).2)) := by
  constructor
  · intro hdu
    have key : out_eventE e o =
        (unplugSt { e with outpos := 0, outsize := o.dataLen },
         [Event.getData, Event.rmFd, Event.flush s]) := by
      simp [out_eventE, ho, hdu, hp, refillFlush, unplugSt, unplugTr, hs]
    rw [key]
    refine ⟨rfl, rfl, ?_⟩
    intro p l
    simp
  · intro hdu hdl
    have key : out_eventE e o =
        ({ e with outpos := 0, outsize := o.dataLen, pollout := false },
         [Event.getData, Event.resetPollout]) := by
      simp [out_eventE, ho, hdu, hdl, hp]
    rw [key]
    refine ⟨rfl, rfl, ?_⟩
    intro p l
    simp

/-- Witness for C5: both refill branches at a concrete engine. -/
theorem out_event_refill_paths_witness :
    ePlugged.outsize = 0 ∧ ePlugged.plugged = true ∧
    ePlugged.session = some 5 ∧
    (out_eventE ePlugged oRefillUnplug).2 =
      [Event.getData, Event.rmFd, Event.flush 5] ∧
    (out_eventE ePlugged oRefillZero).2 =
      [Event.getData, Event.resetPollout] ∧
    (out_eventE ePlugged oRefillZero).1.pollout = false := by
  have h1 := (out_event_refill_paths ePlugged oRefillUnplug 5 rfl rfl rfl).1 rfl
  have h2 := (out_event_refill_paths ePlugged oRefillZero 5 rfl rfl rfl).2 rfl rfl
  exact ⟨rfl, rfl, rfl, h1.1, h2.1, h2.2.1⟩

/-- C9: activate_out re-enables write interest and immediately performs
a speculative out_event; invoked while the outbound buffer is non-empty
the encoder refill branch is skipped entirely (no getData in the
trace), and the outbound cursor and length change only by the
speculative write attempt itself. -/
theorem activate_out_midflight_no_refill (e : Engine) (o : OutOracle) (n : Nat)
    (ho : ¬ e.outsize = 0) (hw : o.writeResult = some n) :
    (activate_outE e o).2 =
      [Event.setPollout, Event.writeT e.outpos e.outsize] ∧
    Event.getData ∉ (activate_outE e o).2 ∧
    (activate_outE e o).1.outpos = e.outpos + n ∧
    (activate_outE e o).1.outsize = e.outsize - n ∧
    (activate_outE e o).1.pollout = true := by
  have h1 : ¬ ({ e with pollout := true } : Engine).outsize = 0 := ho
  have key : activate_outE e o =
      ({ e with pollout := true, outpos := e.outpos + n,
                outsize := e.outsize - n },
       [Event.setPollout, Event.writeT e.outpos e.outsize]) := by
    unfold activate_outE
    dsimp only
    rw [out_event_full _ o h1, writeStep_ok _ o n hw]
  rw [key]
  exact ⟨rfl, by simp, rfl, rfl, rfl⟩

/-- Witness for C9 at the mid-write engine with a 3-byte write. -/
theorem activate_out_midflight_no_refill_witness :
    ¬ eMidWrite.outsize = 0 ∧ oWrite3.writeResult = some 3 ∧
    (activate_outE eMidWrite oWrite3).2 =
      [Event.setPollout, Event.writeT eMidWrite.outpos eMidWrite.outsize] ∧
    Event.getData ∉ (activate_outE eMidWrite oWrite3).2 ∧
    (activate_outE eMidWrite oWrite3).1.outpos = eMidWrite.outpos + 3 ∧
    (activate_outE eMidWrite oWrite3).1.outsize = eMidWrite.outsize - 3 ∧
    (activate_outE eMidWrite oWrite3).1.pollout = true := by
  have h := activate_out_midflight_no_refill eMidWrite oWrite3 3 (by decide) rfl
  exact ⟨by decide, rfl, h.1, h.2.1, h.2.2.1, h.2.2.2.1, h.2.2.2.2⟩

/-- Counterexample for C6: plug a freshly constructed engine while the
drain pass reads 8 bytes of which the decoder consumes only 3; at
plug's postcondition the engine is plugged but read interest has been
paused by the drain pass, so the claimed postcondition (both interests
active) fails. -/
theorem plug_read_interest_paused_cex :
    initE.plugged = false ∧ initE.session = none ∧
    (plugE initE 7 oPartial).1.plugged = true ∧
    (plugE initE 7 oPartial).1.pollin = false := by decide

/-- C6 (amended): plug, called on an unplugged engine holding no
session, attaches the decoder and encoder to the given session,
registers the engine for both read and write readiness (add_fd,
set_pollin, set_pollout), then immediately performs one inbound-drain
pass; when that drain pass reads Bytes(n), the decoder consumes all n
bytes, and no reentrant unplug occurs, the postcondition holds: the
engine is plugged with the session installed and both read and write
interest active. -/
theorem plug_registers_and_drains (e : Engine) (s : Nat) (o : InOracle)
    (n : Nat)
    (hp : e.plugged = false) (hs : e.session = none) (hin : e.insize = 0)
    (hr : o.readResult = ReadResult.bytes n)
    (hc : o.consumeResult = ConsumeOutcome.consumed n)
    (hcu : o.consumeUnplugs = false) (hfu : o.flushUnplugs = false) :
    (plugPrep e s).decoderSession = some s ∧
    (plugPrep e s).encoderSession = some s ∧
    (plugPrep e s).session = some s ∧
    (plugE e s o).2 = Event.addFd :: Event.setPollin :: Event.setPollout ::
        (in_eventE (plugPrep e s) o).2 ∧
    Event.readT ∈ (plugE e s o).2 ∧
    (plugE e s o).1.plugged = true ∧
    (plugE e s o).1.pollin = true ∧
    (plugE e s o).1.pollout = true ∧
    (plugE e s o).1.session = some s := by
  have hin1 : (plugPrep e s).insize = 0 := hin
  have h0 : readPos (plugPrep e s) o = 0 := by
    unfold readPos
    rw [if_pos hin1]
  have h1 : readLen (plugPrep e s) o = n := by
    unfold readLen
    rw [if_pos hin1, hr]
  have h3 : readTr (plugPrep e s) o = [Event.readT] := by
    unfold readTr
    rw [if_pos hin1]
  have hcs := consumeStep_no { plugPrep e s with inpos := readPos (plugPrep e s) o, insize := readLen (plugPrep e s) o } o hcu
  have h2 : readDisc (plugPrep e s) o = false := by
    unfold readDisc
    rw [if_pos hin1, hr]
  have hadj2 : adjustStep { plugPrep e s with inpos := readPos (plugPrep e s) o, insize := readLen (plugPrep e s) o } (readDisc (plugPrep e s) o) o = ({ plugPrep e s with inpos := readPos (plugPrep e s) o + n, insize := readLen (plugPrep e s) o - n }, false, []) := by
    unfold adjustStep
    rw [hc]
    dsimp only
    rw [if_neg, h2]
    · rw [h1]
      simp
  have hfl := flushStep_plain { plugPrep e s with inpos := readPos (plugPrep e s) o + n, insize := readLen (plugPrep e s) o - n } o s rfl rfl hfu
  have key : in_eventE (plugPrep e s) o =
      ({ plugPrep e s with inpos := readPos (plugPrep e s) o + n, insize := readLen (plugPrep e s) o - n },
       readTr (plugPrep e s) o
         ++ [Event.consume (readPos (plugPrep e s) o)
              (readLen (plugPrep e s) o)]
         ++ [] ++ [] ++ [Event.flush s] ++ []) := by
    unfold in_eventE
    dsimp only
    rw [hcs]
    dsimp only
    rw [hadj2]
    dsimp only
    rw [hfl]
    dsimp only
    rw [errorStep_false]
  refine ⟨rfl, rfl, rfl, rfl, ?_, ?_, ?_, ?_, ?_⟩
  · have htr : (plugE e s o).2 = Event.addFd :: Event.setPollin ::
        Event.setPollout :: (in_eventE (plugPrep e s) o).2 := rfl
    rw [htr, key, h3]
    simp
  · have hfst : (plugE e s o).1 = (in_eventE (plugPrep e s) o).1 := rfl
    rw [hfst, key]
    rfl
  · have hfst : (plugE e s o).1 = (in_eventE (plugPrep e s) o).1 := rfl
    rw [hfst, key]
    rfl
  · have hfst : (plugE e s o).1 = (in_eventE (plugPrep e s) o).1 := rfl
    rw [hfst, key]
    rfl
  · have hfst : (plugE e s o).1 = (in_eventE (plugPrep e s) o).1 := rfl
    rw [hfst, key]
    rfl

/-- Witness for the amended C6 at a fresh engine with a fully consumed
8-byte drain pass. -/
theorem plug_registers_and_drains_witness :
    initE.plugged = false ∧ initE.session = none ∧ initE.insize = 0 ∧
    (plugE initE 7 oBasic).1.plugged = true ∧
    (plugE initE 7 oBasic).1.pollin = true ∧
    (plugE initE 7 oBasic).1.pollout = true ∧
    (plugE initE 7 oBasic).1.session = some 7 := by
  have h := plug_registers_and_drains initE 7 oBasic 8 rfl rfl rfl rfl rfl rfl rfl
  exact ⟨rfl, rfl, rfl, h.2.2.2.2.2.1, h.2.2.2.2.2.2.1,
         h.2.2.2.2.2.2.2.1, h.2.2.2.2.2.2.2.2⟩

theorem inv_initE : Inv initE :=
  ⟨fun h => Bool.noConfusion h, fun _ => rfl⟩

theorem inv_unplugSt (e : Engine) : Inv (unplugSt e) :=
  ⟨fun h => Bool.noConfusion h, fun _ => rfl⟩

theorem inv_errorE (e : Engine) (h : Inv e) : Inv (errorE e).1 := by
  unfold errorE
  rcases hs : e.session with _ | s <;> simp [hs]
  · exact h
  · exact ⟨fun hh => Bool.noConfusion hh, fun _ => rfl⟩

theorem inv_consumeStep (e1 : Engine) (o : InOracle) (h : Inv e1) :
    Inv (consumeStep e1 o).1 := by
  unfold consumeStep
  split
  · exact inv_unplugSt e1
  · exact h

theorem inv_adjustStep (e2 : Engine) (d : Bool) (o : InOracle) (h : Inv e2) :
    Inv (adjustStep e2 d o).1 := by
  have hk := adjustStep_keeps e2 d o
  constructor
  · intro hpl
    rw [hk.2.2.1] at hpl
    rw [hk.1, hk.2.1]
    exact h.1 hpl
  · intro hpl
    rw [hk.2.2.1] at hpl
    rw [hk.1]
    exact h.2 hpl

theorem inv_flushStep (e3 : Engine) (o : InOracle) (h : Inv e3) :
    Inv (flushStep e3 o).1 := by
  rcases flushStep_state e3 o with heq | heq <;> rw [heq]
  · exact h
  · exact inv_unplugSt e3

theorem inv_errorStep (e4 : Engine) (d : Bool) (h : Inv e4) :
    Inv (errorStep e4 d).1 := by
  rcases errorStep_state e4 d with heq | heq <;> rw [heq]
  · exact h
  · exact ⟨fun hh => Bool.noConfusion hh, fun _ => rfl⟩

theorem inv_in_eventE (e : Engine) (o : InOracle) (h : Inv e) :
    Inv (in_eventE e o).1 := by
  rw [in_event_fst]
  exact inv_errorStep _ _ (inv_flushStep _ o
    (inv_adjustStep _ _ o (inv_consumeStep _ o h)))

theorem inv_writeStep (e : Engine) (o : OutOracle) (h : Inv e) :
    Inv (writeStep e o).1 := by
  unfold writeStep
  rcases hw : o.writeResult with _ | n <;> simp [hw]
  · exact inv_errorE e h
  · exact ⟨h.1, h.2⟩

theorem inv_out_eventE (e : Engine) (o : OutOracle) (h : Inv e) :
    Inv (out_eventE e o).1 := by
  unfold out_eventE
  split
  · dsimp only
    by_cases hc : o.dataUnplugs = true ∧ e.plugged = true
    · rw [if_pos hc]
      rw [if_pos (unplugSt_plugged _)]
      dsimp only
      rw [refillFlush_state]
      exact inv_unplugSt _
    · rw [if_neg hc]
      by_cases hpl : e.plugged = false
      · rw [if_pos hpl]
        dsimp only
        rw [refillFlush_state]
        exact ⟨h.1, h.2⟩
      · rw [if_neg hpl]
        by_cases hz : o.dataLen = 0
        · rw [if_pos hz]
          exact ⟨h.1, h.2⟩
        · rw [if_neg hz]
          dsimp only
          exact inv_writeStep _ o ⟨h.1, h.2⟩
  · exact inv_writeStep e o h

theorem inv_reachable (e : Engine) (h : Reachable e) : Inv e := by
  induction h with
  | init => exact inv_initE
  | plug e s o hr hp hs ih =>
      exact inv_in_eventE (plugPrep e s) o
        ⟨fun _ => ⟨rfl, rfl⟩, fun hh => Bool.noConfusion hh⟩
  | unplug e hr hp ih => exact inv_unplugSt e
  | terminate e hr hp ih =>
      exact ⟨fun hh => Bool.noConfusion hh, fun _ => rfl⟩
  | inEvent e o hr ih => exact inv_in_eventE e o ih
  | outEvent e o hr ih => exact inv_out_eventE e o ih
  | actIn e o hr ih => exact inv_in_eventE _ o ⟨ih.1, ih.2⟩
  | actOut e o hr ih => exact inv_out_eventE _ o ⟨ih.1, ih.2⟩
  | err e hr hs ih => exact inv_errorE e ih

/-- C8: For every reachable engine state, at most one of the current
session reference and the transient (leftover) session reference is
non-null; moreover plug clears the transient slot before installing
the current session, and unplug moves the current session into the
transient slot while nulling the current reference. -/
theorem session_leftover_at_most_one (e : Engine) (s : Nat)
    (h : Reachable e) :
    ¬ (e.session.isSome = true ∧ e.leftover_session.isSome = true) ∧
    (plugPrep e s).leftover_session = none ∧
    (plugPrep e s).session = some s ∧
    (unplugSt e).leftover_session = e.session ∧
    (unplugSt e).session = none := by
  have hi := inv_reachable e h
  refine ⟨?_, rfl, rfl, rfl, rfl⟩
  rintro ⟨h1, h2⟩
  cases hpl : e.plugged
  · rw [hi.2 hpl] at h1
    simp at h1
  · rw [(hi.1 hpl).2] at h2
    simp at h2

/-- Witness for C8 at the initial (constructed) engine state. -/
theorem session_leftover_at_most_one_witness :
    ¬ (initE.session.isSome = true ∧ initE.leftover_session.isSome = true) ∧
    (plugPrep initE 7).leftover_session = none ∧
    (plugPrep initE 7).session = some 7 ∧
    (unplugSt initE).leftover_session = initE.session ∧
    (unplugSt initE).session = none :=
  session_leftover_at_most_one initE 7 Reachable.init

end ZmqEngine
